import Mathlib

/-!
Shallow embedding of the ETL pipeline orchestrator from
src/03-pipeline-etl/src/pipeline.py (class ETLPipeline).

The orchestrator's own code is embedded directly; the external collaborators
(CSVExtractor, APIExtractor, DataCleaner, DataValidator, DatabaseLoader) are
not part of the repository's orchestration core, so they are modelled as an
environment `Env` of functions returning `Except String _` (an exception is
`Except.error msg`, mirroring Python's raised exception with its message).
Records are an abstract type `α`; a dataframe is a `List α` (Python `len`
becomes `List.length`).  Python dictionaries keyed by source name become
insertion-ordered association lists `List (String × List α)`.  `datetime.now()`
is modelled by an abstract clock value `Env.now`.
-/

namespace ETL

/-- One entry of `self.execution_log`: the Python dicts
`{'fase': ..., 'status': 'success', 'timestamp': ..., 'records': n}` and
`{'fase': ..., 'status': 'error', 'timestamp': ..., 'error': msg}` are both
represented, with the absent key of each shape as `none`. -/
structure LogEntry where
  fase : String
  status : String
  timestamp : Nat
  records : Option Nat
  error : Option String
  deriving DecidableEq, Repr

/-- Success entry appended by a phase: carries a record count, no error text. -/
def successEntry (phase : String) (now n : Nat) : LogEntry :=
  { fase := phase, status := "success", timestamp := now, records := some n, error := none }

/-- Error entry appended by a phase: carries the exception message, no count. -/
def errorEntry (phase : String) (now : Nat) (msg : String) : LogEntry :=
  { fase := phase, status := "error", timestamp := now, records := none, error := some msg }

/-- The external collaborators and the clock.
`csvExtract cfgVal` is `CSVExtractor(config.get('csv_path')).extract()`
(construction plus extraction, either of which may raise); likewise
`apiExtract`.  `clean` is `DataCleaner().clean(df)`; `validate` is
`DataValidator().validate(df)` returning the records and the report's
`valid_records` count.  `loaderInit db` is `DatabaseLoader(config['database'])`
construction; `dbLoad db df mode` is `loader.load(df, mode=mode)` returning the
number of records written. -/
structure Env (α : Type) where
  now : Nat
  csvExtract : Option String → Except String (List α)
  apiExtract : Option String → Except String (List α)
  clean : List α → Except String (List α)
  validate : List α → Except String (List α × Nat)
  loaderInit : String → Except String Unit
  dbLoad : String → List α → String → Except String Nat

/-- The orchestrator's state: `self.config` (a flat key/value view of the
parsed YAML mapping; nested values such as the database block are opaque
strings) and `self.execution_log`. -/
structure ETLPipeline where
  config : List (String × String)
  execution_log : List LogEntry
  deriving DecidableEq, Repr

/-- `config.get(key)` — `none` when the key is absent (Python `None`). -/
def lookupConfig (cfg : List (String × String)) (k : String) : Option String :=
  (cfg.find? (fun p => p.1 == k)).map Prod.snd

/-- `sum(len(df) for df in data.values())`. -/
def sumRecords {α : Type} (d : List (String × List α)) : Nat :=
  (d.map (fun p => p.2.length)).sum

/-- `ETLPipeline.__init__(config_path)`: `_load_config` opens the file and
runs `yaml.safe_load`, which is external I/O; its outcome is the `parsed`
argument.  The code performs no validation of the parsed mapping and wraps
nothing: a parse failure propagates unchanged, and any successfully parsed
mapping — whatever keys it has — is stored with an empty execution log. -/
def pipelineInit (parsed : Except String (List (String × String))) :
    Except String ETLPipeline :=
  match parsed with
  | .error e => .error e
  | .ok c => .ok { config := c, execution_log := [] }

/-- The body of the `try` block of `extract`: build the dict, inserting
`'csv'` first (when requested) and then `'api'` (when requested); any other
identifier in `sources` is never consulted. -/
def extractData {α : Type} (env : Env α) (cfg : List (String × String))
    (sources : List String) : Except String (List (String × List α)) :=
  match (if "csv" ∈ sources then
           (env.csvExtract (lookupConfig cfg "csv_path")).map (fun l => [("csv", l)])
         else Except.ok []) with
  | .error e => .error e
  | .ok part1 =>
    match (if "api" ∈ sources then
             (env.apiExtract (lookupConfig cfg "api_url")).map (fun l => [("api", l)])
           else Except.ok []) with
    | .error e => .error e
    | .ok part2 => .ok (part1 ++ part2)

/-- `ETLPipeline.extract(sources)`: run the try-block; on success append a
success entry whose count sums the extracted dataframes and return the data;
on exception append an error entry and re-raise. -/
def extract {α : Type} (env : Env α) (st : ETLPipeline) (sources : List String) :
    Except String (List (String × List α)) × ETLPipeline :=
  match extractData env st.config sources with
  | .ok d =>
    (.ok d, { st with execution_log :=
        st.execution_log ++ [successEntry "extract" env.now (sumRecords d)] })
  | .error e =>
    (.error e, { st with execution_log :=
        st.execution_log ++ [errorEntry "extract" env.now e] })

/-- The per-source body of `transform`'s loop: `if 'clean' in rules` apply the
cleaner, then `if 'validate' in rules` apply the validator to the (possibly
cleaned) records, keeping the records component of its result. -/
def applyRules {α : Type} (env : Env α) (rules : List String) (df : List α) :
    Except String (List α) :=
  match (if "clean" ∈ rules then env.clean df else Except.ok df) with
  | .error e => .error e
  | .ok df1 =>
    if "validate" ∈ rules then
      match env.validate df1 with
      | .error e => .error e
      | .ok (df2, _rep) => .ok df2
    else .ok df1

/-- The body of the `try` block of `transform`: process each source in order,
aborting the whole phase on the first exception. -/
def transformData {α : Type} (env : Env α) (rules : List String) :
    List (String × List α) → Except String (List (String × List α))
  | [] => Except.ok []
  | p :: rest =>
    match applyRules env rules p.2 with
    | .error e => .error e
    | .ok df2 =>
      match transformData env rules rest with
      | .error e => .error e
      | .ok rest2 => .ok ((p.1, df2) :: rest2)

/-- `ETLPipeline.transform(data, rules)` with the same try/except/log shape as
`extract`. -/
def transform {α : Type} (env : Env α) (st : ETLPipeline)
    (data : List (String × List α)) (rules : List String) :
    Except String (List (String × List α)) × ETLPipeline :=
  match transformData env rules data with
  | .ok d =>
    (.ok d, { st with execution_log :=
        st.execution_log ++ [successEntry "transform" env.now (sumRecords d)] })
  | .error e =>
    (.error e, { st with execution_log :=
        st.execution_log ++ [errorEntry "transform" env.now e] })

/-- The loader loop of `load`: `total_records` accumulates each
`loader.load(df, mode=mode)` result, aborting on the first exception. -/
def loadSources {α : Type} (env : Env α) (db : String) (mode : String) :
    List (String × List α) → Nat → Except String Nat
  | [], total => Except.ok total
  | p :: rest, total =>
    match env.dbLoad db p.2 mode with
    | .error e => .error e
    | .ok n => loadSources env db mode rest (total + n)

/-- The body of the `try` block of `load`: `self.config['database']` raises
`KeyError` when absent, then the loader is constructed once and applied to
each source. -/
def loadData {α : Type} (env : Env α) (cfg : List (String × String))
    (data : List (String × List α)) (mode : String) : Except String Nat :=
  match lookupConfig cfg "database" with
  | none => Except.error "KeyError: database"
  | some db =>
    match env.loaderInit db with
    | .error e => .error e
    | .ok _ => loadSources env db mode data 0

/-- `ETLPipeline.load(data, mode)`: same try/except/log shape; the success
entry's count is the accumulated total. -/
def load {α : Type} (env : Env α) (st : ETLPipeline)
    (data : List (String × List α)) (mode : String) :
    Except String Nat × ETLPipeline :=
  match loadData env st.config data mode with
  | .ok total =>
    (.ok total, { st with execution_log :=
        st.execution_log ++ [successEntry "load" env.now total] })
  | .error e =>
    (.error e, { st with execution_log :=
        st.execution_log ++ [errorEntry "load" env.now e] })

/-- `ETLPipeline.run(extract_sources, transform_rules, load_mode)`: extract,
then transform on its output, then load on that output; the first exception
aborts the rest and propagates.  The `Bool` records whether the success
branch — the only place the wall-clock duration is computed and logged —
was reached. -/
def run {α : Type} (env : Env α) (st : ETLPipeline)
    (sources rules : List String) (mode : String) :
    (Except String Unit × Bool) × ETLPipeline :=
  match extract env st sources with
  | (.error e, st1) => ((.error e, false), st1)
  | (.ok data, st1) =>
    match transform env st1 data rules with
    | (.error e, st2) => ((.error e, false), st2)
    | (.ok tdata, st2) =>
      match load env st2 tdata mode with
      | (.error e, st3) => ((.error e, false), st3)
      | (.ok _, st3) => ((.ok (), true), st3)

/-- `ETLPipeline.get_execution_log()`. -/
def get_execution_log (st : ETLPipeline) : List LogEntry :=
  st.execution_log

/-- The orchestrator's public operations, for stating lifetime invariants
over arbitrary interleavings of calls. -/
inductive Op (α : Type) where
  | extractOp (sources : List String)
  | transformOp (data : List (String × List α)) (rules : List String)
  | loadOp (data : List (String × List α)) (mode : String)
  | runOp (sources : List String) (rules : List String) (mode : String)

/-- The state after one call (whether it returned or raised). -/
def step {α : Type} (env : Env α) (st : ETLPipeline) : Op α → ETLPipeline
  | .extractOp s => (extract env st s).2
  | .transformOp d r => (transform env st d r).2
  | .loadOp d m => (load env st d m).2
  | .runOp s r m => (run env st s r m).2

/-- The state after a sequence of calls. -/
def steps {α : Type} (env : Env α) (st : ETLPipeline) (ops : List (Op α)) : ETLPipeline :=
  ops.foldl (step env) st

/-- Position of a phase in the pipeline order. -/
def phaseIdx : String → Nat
  | "extract" => 0
  | "transform" => 1
  | "load" => 2
  | _ => 3

/-! ### Concrete environments and states used by witnesses -/

/-- A test environment in which every collaborator succeeds. -/
def env0 : Env Nat :=
  { now := 7
    csvExtract := fun _ => .ok [10, 20, 30]
    apiExtract := fun _ => .ok [40, 50]
    clean := fun l => .ok (l.filter (fun x => decide (x ≠ 0)))
    validate := fun l => .ok (l, l.length)
    loaderInit := fun _ => .ok ()
    dbLoad := fun _ l _ => .ok l.length }

/-- A test environment whose CSV extractor raises. -/
def envCsvFail : Env Nat :=
  { env0 with csvExtract := fun _ => .error "csv boom" }

/-- A test environment whose validator raises. -/
def envValidateFail : Env Nat :=
  { env0 with validate := fun _ => .error "validate boom" }

/-- A test environment whose database loader raises on load. -/
def envLoadFail : Env Nat :=
  { env0 with dbLoad := fun _ _ _ => .error "load boom" }

/-- A freshly constructed pipeline with a fully populated configuration. -/
def st0 : ETLPipeline :=
  { config := [("csv_path", "data.csv"), ("api_url", "http"), ("database", "db")]
    execution_log := [] }

/-! ### Log-shape lemmas for the three phases -/

theorem extract_snd {α : Type} (env : Env α) (st : ETLPipeline) (sources : List String) :
    (extract env st sources).2 =
      { st with execution_log := st.execution_log ++
          [match extractData env st.config sources with
           | .ok d => successEntry "extract" env.now (sumRecords d)
           | .error e => errorEntry "extract" env.now e] } := by
  unfold extract
  cases extractData env st.config sources <;> rfl

theorem transform_snd {α : Type} (env : Env α) (st : ETLPipeline)
    (data : List (String × List α)) (rules : List String) :
    (transform env st data rules).2 =
      { st with execution_log := st.execution_log ++
          [match transformData env rules data with
           | .ok d => successEntry "transform" env.now (sumRecords d)
           | .error e => errorEntry "transform" env.now e] } := by
  unfold transform
  cases transformData env rules data <;> rfl

theorem load_snd {α : Type} (env : Env α) (st : ETLPipeline)
    (data : List (String × List α)) (mode : String) :
    (load env st data mode).2 =
      { st with execution_log := st.execution_log ++
          [match loadData env st.config data mode with
           | .ok n => successEntry "load" env.now n
           | .error e => errorEntry "load" env.now e] } := by
  unfold load
  cases loadData env st.config data mode <;> rfl

theorem successEntry_fields (phase : String) (now n : Nat) :
    (successEntry phase now n).status = "success" ∧
    (successEntry phase now n).records = some n ∧
    (successEntry phase now n).error = none ∧
    (successEntry phase now n).fase = phase := by
  exact ⟨rfl, rfl, rfl, rfl⟩

theorem errorEntry_fields (phase : String) (now : Nat) (msg : String) :
    (errorEntry phase now msg).status = "error" ∧
    (errorEntry phase now msg).records = none ∧
    (errorEntry phase now msg).error = some msg ∧
    (errorEntry phase now msg).fase = phase := by
  exact ⟨rfl, rfl, rfl, rfl⟩

/-- The single-entry append discipline shared by the three phases:
one entry is appended, it carries a count exactly when its status is
success, and an error message exactly when its status is error. -/
def appendsOneEntry (st st2 : ETLPipeline) : Prop :=
  ∃ en : LogEntry, st2.execution_log = st.execution_log ++ [en] ∧
    (en.status = "success" ↔ en.records.isSome = true) ∧
    (en.status = "error" ↔ en.error.isSome = true)

theorem appendsOneEntry_of_success (st : ETLPipeline) (l : List LogEntry)
    (phase : String) (now n : Nat)
    (h : l = st.execution_log ++ [successEntry phase now n]) :
    appendsOneEntry st { st with execution_log := l } := by
  refine ⟨successEntry phase now n, h, ?_, ?_⟩ <;> simp [successEntry]

theorem appendsOneEntry_of_error (st : ETLPipeline) (l : List LogEntry)
    (phase : String) (now : Nat) (msg : String)
    (h : l = st.execution_log ++ [errorEntry phase now msg]) :
    appendsOneEntry st { st with execution_log := l } := by
  refine ⟨errorEntry phase now msg, h, ?_, ?_⟩ <;> simp [errorEntry, successEntry]

/-- **C4**: Every call to extract, transform, or load appends exactly one
entry to the execution log, whether the call succeeds or raises; that entry
carries a record count if and only if the status is success, and an error
message if and only if the status is error; the previously accumulated log
entries reappear unchanged in front of the new entry. -/
theorem phase_appends_one_entry {α : Type} (env : Env α) (st : ETLPipeline)
    (sources rules : List String) (data : List (String × List α)) (mode : String) :
    appendsOneEntry st (extract env st sources).2 ∧
    appendsOneEntry st (transform env st data rules).2 ∧
    appendsOneEntry st (load env st data mode).2 := by
  refine ⟨?_, ?_, ?_⟩
  · rw [extract_snd]
    cases extractData env st.config sources with
    | ok d => exact appendsOneEntry_of_success st _ "extract" env.now (sumRecords d) rfl
    | error e => exact appendsOneEntry_of_error st _ "extract" env.now e rfl
  · rw [transform_snd]
    cases transformData env rules data with
    | ok d => exact appendsOneEntry_of_success st _ "transform" env.now (sumRecords d) rfl
    | error e => exact appendsOneEntry_of_error st _ "transform" env.now e rfl
  · rw [load_snd]
    cases loadData env st.config data mode with
    | ok n => exact appendsOneEntry_of_success st _ "load" env.now n rfl
    | error e => exact appendsOneEntry_of_error st _ "load" env.now e rfl

/-- **C5, counterexample**: constructing the orchestrator from a successfully
parsed configuration that is missing every required key (the empty mapping has
neither `csv_path`, `api_url`, nor `database`) does **not** fail: it returns a
pipeline, refuting the claim that missing required keys make construction fail
with a ConfigError. -/
theorem pipelineInit_missing_keys_succeeds :
    pipelineInit (Except.ok ([] : List (String × String))) =
      Except.ok { config := [], execution_log := [] } := rfl

/-- **C5, amended**: construction fails exactly when the configuration source
cannot be parsed, and then it propagates the underlying parse error unchanged
(no dedicated ConfigError wrapper); a parsed configuration is accepted as-is —
missing required keys do not fail construction, they surface later in the
phase that needs them — and on successful construction the stored
configuration is the parsed mapping and the execution log is empty. -/
theorem pipelineInit_spec (e : String) (c : List (String × String)) :
    pipelineInit (Except.error e) = Except.error e ∧
    pipelineInit (Except.ok c) = Except.ok { config := c, execution_log := [] } :=
  ⟨rfl, rfl⟩

/-- **C10**: transform with a rule list containing neither "clean" nor
"validate" is the identity: it succeeds, returns the input mapping unchanged
(same keys, same record sequences), and appends a success entry counting the
total number of input records. -/
theorem transform_no_rules_identity {α : Type} (env : Env α) (st : ETLPipeline)
    (data : List (String × List α)) (rules : List String)
    (hc : "clean" ∉ rules) (hv : "validate" ∉ rules) :
    transform env st data rules =
      (Except.ok data,
       { st with execution_log := st.execution_log ++
           [successEntry "transform" env.now (sumRecords data)] }) := by
  have hd : transformData env rules data = Except.ok data := by
    induction data with
    | nil => rfl
    | cons p rest ih =>
      have hrule : applyRules env rules p.2 = Except.ok p.2 := by
        unfold applyRules
        simp [hc, hv]
      unfold transformData
      rw [hrule, ih]
  unfold transform
  rw [hd]

/-- **C10, witness**: the identity behavior at a concrete input with the rule
list ["enrich"] (which requests neither recognized rule). -/
theorem transform_no_rules_identity_witness :
    ("clean" ∉ (["enrich"] : List String)) ∧
    ("validate" ∉ (["enrich"] : List String)) ∧
    transform env0 st0 [("csv", [10, 20, 30])] ["enrich"] =
      (Except.ok [("csv", [10, 20, 30])],
       { st0 with execution_log := [successEntry "transform" 7 3] }) :=
  ⟨by decide, by decide,
    transform_no_rules_identity env0 st0 [("csv", [10, 20, 30])] ["enrich"]
      (by decide) (by decide)⟩

/-! ### Case equations for `run` -/

theorem run_eq_extract_error {α : Type} (env : Env α) (st : ETLPipeline)
    (sources rules : List String) (mode : String) (e : String)
    (hx : extractData env st.config sources = Except.error e) :
    run env st sources rules mode =
      ((Except.error e, false),
       { st with execution_log := st.execution_log ++ [errorEntry "extract" env.now e] }) := by
  unfold run extract
  rw [hx]

theorem run_eq_transform_error {α : Type} (env : Env α) (st : ETLPipeline)
    (sources rules : List String) (mode : String) (d : List (String × List α)) (e : String)
    (hx : extractData env st.config sources = Except.ok d)
    (ht : transformData env rules d = Except.error e) :
    run env st sources rules mode =
      ((Except.error e, false),
       { st with execution_log := st.execution_log ++
           [successEntry "extract" env.now (sumRecords d),
            errorEntry "transform" env.now e] }) := by
  unfold run extract transform
  simp [hx, ht]

theorem run_eq_load_error {α : Type} (env : Env α) (st : ETLPipeline)
    (sources rules : List String) (mode : String)
    (d td : List (String × List α)) (e : String)
    (hx : extractData env st.config sources = Except.ok d)
    (ht : transformData env rules d = Except.ok td)
    (hl : loadData env st.config td mode = Except.error e) :
    run env st sources rules mode =
      ((Except.error e, false),
       { st with execution_log := st.execution_log ++
           [successEntry "extract" env.now (sumRecords d),
            successEntry "transform" env.now (sumRecords td),
            errorEntry "load" env.now e] }) := by
  unfold run extract transform load
  simp [hx, ht, hl]

theorem run_eq_ok {α : Type} (env : Env α) (st : ETLPipeline)
    (sources rules : List String) (mode : String)
    (d td : List (String × List α)) (n : Nat)
    (hx : extractData env st.config sources = Except.ok d)
    (ht : transformData env rules d = Except.ok td)
    (hl : loadData env st.config td mode = Except.ok n) :
    run env st sources rules mode =
      ((Except.ok (), true),
       { st with execution_log := st.execution_log ++
           [successEntry "extract" env.now (sumRecords d),
            successEntry "transform" env.now (sumRecords td),
            successEntry "load" env.now n] }) := by
  unfold run extract transform load
  simp [hx, ht, hl]

/-- **C1**: if `run` fails, the entries it appended to the execution log are a
block of success entries for strictly earlier phases followed by exactly one
error entry, whose phase is one of extract, transform, load and whose message
is the exception that propagated to the caller; no entry for any later phase
is appended. -/
theorem run_failure_log {α : Type} (env : Env α) (st : ETLPipeline)
    (sources rules : List String) (mode : String) (e : String)
    (h : ((run env st sources rules mode).1).1 = Except.error e) :
    ∃ pre p,
      (run env st sources rules mode).2.execution_log
        = st.execution_log ++ (pre ++ [errorEntry p env.now e]) ∧
      phaseIdx p ≤ 2 ∧
      (∀ en ∈ pre, en.status = "success" ∧ phaseIdx en.fase < phaseIdx p) := by
  cases hx : extractData env st.config sources with
  | error e0 =>
    rw [run_eq_extract_error env st sources rules mode e0 hx] at h ⊢
    cases h
    exact ⟨[], "extract", by simp, by decide, by simp⟩
  | ok d =>
    cases ht : transformData env rules d with
    | error e0 =>
      rw [run_eq_transform_error env st sources rules mode d e0 hx ht] at h ⊢
      cases h
      refine ⟨[successEntry "extract" env.now (sumRecords d)], "transform", by simp, by decide, ?_⟩
      intro en hen
      simp at hen
      subst hen
      exact ⟨rfl, by simp only [successEntry]; decide⟩
    | ok td =>
      cases hl : loadData env st.config td mode with
      | error e0 =>
        rw [run_eq_load_error env st sources rules mode d td e0 hx ht hl] at h ⊢
        cases h
        refine ⟨[successEntry "extract" env.now (sumRecords d),
                 successEntry "transform" env.now (sumRecords td)], "load", by simp, by decide, ?_⟩
        intro en hen
        simp at hen
        rcases hen with hen | hen <;> subst hen <;>
          exact ⟨rfl, by simp only [successEntry]; decide⟩
      | ok n =>
        rw [run_eq_ok env st sources rules mode d td n hx ht hl] at h
        cases h

/-- **C1, witness**: a failing CSV extractor makes `run` fail, and the
conclusion of `run_failure_log` holds there. -/
theorem run_failure_log_witness :
    ((run envCsvFail st0 ["csv"] [] "incremental").1).1 = Except.error "csv boom" ∧
    ∃ pre p,
      (run envCsvFail st0 ["csv"] [] "incremental").2.execution_log
        = st0.execution_log ++ (pre ++ [errorEntry p envCsvFail.now "csv boom"]) ∧
      phaseIdx p ≤ 2 ∧
      (∀ en ∈ pre, en.status = "success" ∧ phaseIdx en.fase < phaseIdx p) :=
  ⟨rfl, run_failure_log envCsvFail st0 ["csv"] [] "incremental" "csv boom" rfl⟩

/-- **C3**: a `run` that completes without raising appended exactly three
success entries, in the order extract, transform, load, each carrying a
(necessarily non-negative) record count; and the wall-clock duration is
computed and logged exactly when `run` itself reached its success branch. -/
theorem run_success_log {α : Type} (env : Env α) (st : ETLPipeline)
    (sources rules : List String) (mode : String) :
    (((run env st sources rules mode).1).1 = Except.ok () →
      ∃ n1 n2 n3,
        (run env st sources rules mode).2.execution_log
          = st.execution_log ++
            [successEntry "extract" env.now n1, successEntry "transform" env.now n2,
             successEntry "load" env.now n3] ∧
        ((run env st sources rules mode).1).2 = true) ∧
    (((run env st sources rules mode).1).2 = true →
      ((run env st sources rules mode).1).1 = Except.ok ()) := by
  cases hx : extractData env st.config sources with
  | error e0 =>
    rw [run_eq_extract_error env st sources rules mode e0 hx]
    exact ⟨fun h => (nomatch h), fun h => (nomatch h)⟩
  | ok d =>
    cases ht : transformData env rules d with
    | error e0 =>
      rw [run_eq_transform_error env st sources rules mode d e0 hx ht]
      exact ⟨fun h => (nomatch h), fun h => (nomatch h)⟩
    | ok td =>
      cases hl : loadData env st.config td mode with
      | error e0 =>
        rw [run_eq_load_error env st sources rules mode d td e0 hx ht hl]
        exact ⟨fun h => (nomatch h), fun h => (nomatch h)⟩
      | ok n =>
        rw [run_eq_ok env st sources rules mode d td n hx ht hl]
        exact ⟨fun _ => ⟨sumRecords d, sumRecords td, n, rfl, rfl⟩, fun _ => rfl⟩

/-- **C3, witness**: a fully successful concrete run, with the success-branch
hypothesis discharged by evaluation. -/
theorem run_success_log_witness :
    ((run env0 st0 ["csv"] ["clean", "validate"] "incremental").1).1 = Except.ok () ∧
    ∃ n1 n2 n3,
      (run env0 st0 ["csv"] ["clean", "validate"] "incremental").2.execution_log
        = st0.execution_log ++
          [successEntry "extract" env0.now n1, successEntry "transform" env0.now n2,
           successEntry "load" env0.now n3] ∧
      ((run env0 st0 ["csv"] ["clean", "validate"] "incremental").1).2 = true :=
  ⟨rfl,
    (run_success_log env0 st0 ["csv"] ["clean", "validate"] "incremental").1 rfl⟩

/-! ### State-shape lemmas for `run` and `step` -/

theorem run_snd {α : Type} (env : Env α) (st : ETLPipeline)
    (sources rules : List String) (mode : String) :
    ∃ t, (run env st sources rules mode).2 =
      { st with execution_log := st.execution_log ++ t } := by
  cases hx : extractData env st.config sources with
  | error e =>
    exact ⟨_, by rw [run_eq_extract_error env st sources rules mode e hx]⟩
  | ok d =>
    cases ht : transformData env rules d with
    | error e =>
      exact ⟨_, by rw [run_eq_transform_error env st sources rules mode d e hx ht]⟩
    | ok td =>
      cases hl : loadData env st.config td mode with
      | error e =>
        exact ⟨_, by rw [run_eq_load_error env st sources rules mode d td e hx ht hl]⟩
      | ok n =>
        exact ⟨_, by rw [run_eq_ok env st sources rules mode d td n hx ht hl]⟩

theorem step_snd {α : Type} (env : Env α) (st : ETLPipeline) (op : Op α) :
    ∃ t, step env st op = { st with execution_log := st.execution_log ++ t } := by
  cases op with
  | extractOp s => exact ⟨_, extract_snd env st s⟩
  | transformOp d r => exact ⟨_, transform_snd env st d r⟩
  | loadOp d m => exact ⟨_, load_snd env st d m⟩
  | runOp s r m => exact run_snd env st s r m

/-- **C7**: `get_execution_log` is a pure read (two calls with no intervening
phase call return equal sequences), and across any sequence of orchestrator
calls the log only grows by appending: every earlier snapshot is an initial
segment of every later one — the log is never cleared. -/
theorem get_execution_log_monotone {α : Type} (env : Env α) (st : ETLPipeline)
    (ops : List (Op α)) :
    get_execution_log st = get_execution_log st ∧
    ∃ t, get_execution_log (steps env st ops) = get_execution_log st ++ t := by
  refine ⟨rfl, ?_⟩
  induction ops generalizing st with
  | nil => exact ⟨[], by simp [steps, get_execution_log]⟩
  | cons op rest ih =>
    obtain ⟨t1, h1⟩ := step_snd env st op
    obtain ⟨t2, h2⟩ := ih (step env st op)
    refine ⟨t1 ++ t2, ?_⟩
    show get_execution_log (steps env (step env st op) rest) = _
    rw [h2, h1]
    simp [get_execution_log, List.append_assoc]

/-- **C8**: the configuration is never modified after construction: every
orchestrator call — extract, transform, load, or run, whether it returns or
raises — leaves `config` exactly as it was, and so does any sequence of
calls (`get_execution_log` does not touch the state at all). -/
theorem config_immutable {α : Type} (env : Env α) (st : ETLPipeline)
    (op : Op α) (ops : List (Op α)) :
    (step env st op).config = st.config ∧ (steps env st ops).config = st.config := by
  have hstep : ∀ (st2 : ETLPipeline) (op2 : Op α), (step env st2 op2).config = st2.config := by
    intro st2 op2
    obtain ⟨t, h⟩ := step_snd env st2 op2
    rw [h]
  refine ⟨hstep st op, ?_⟩
  induction ops generalizing st with
  | nil => rfl
  | cons o rest ih =>
    show (steps env (step env st o) rest).config = st.config
    rw [ih (step env st o), hstep st o]

/-! ### Key-set lemmas for `extract` -/

theorem extractData_ok_keys {α : Type} (env : Env α) (cfg : List (String × String))
    (sources : List String) (d : List (String × List α))
    (h : extractData env cfg sources = Except.ok d) :
    d.map Prod.fst = (if "csv" ∈ sources then ["csv"] else []) ++
      (if "api" ∈ sources then ["api"] else []) := by
  unfold extractData at h
  by_cases hc : "csv" ∈ sources <;> by_cases ha : "api" ∈ sources <;> simp only [hc, ha, if_true, if_false, ite_true, ite_false] at h ⊢
  · cases h1 : env.csvExtract (lookupConfig cfg "csv_path") with
    | error e => rw [h1] at h; simp [Except.map] at h
    | ok l1 =>
      rw [h1] at h
      simp only [Except.map] at h
      cases h2 : env.apiExtract (lookupConfig cfg "api_url") with
      | error e => rw [h2] at h; simp [Except.map] at h
      | ok l2 =>
        rw [h2] at h
        simp only [Except.map, Except.ok.injEq] at h
        subst h
        rfl
  · cases h1 : env.csvExtract (lookupConfig cfg "csv_path") with
    | error e => rw [h1] at h; simp [Except.map] at h
    | ok l1 =>
      rw [h1] at h
      simp only [Except.map, Except.ok.injEq] at h
      subst h
      rfl
  · cases h2 : env.apiExtract (lookupConfig cfg "api_url") with
    | error e => rw [h2] at h; simp [Except.map] at h
    | ok l2 =>
      rw [h2] at h
      simp only [Except.map, Except.ok.injEq] at h
      subst h
      rfl
  · simp only [Except.ok.injEq] at h
    subst h
    rfl

theorem keys_mem_iff (sources : List String) (k : String) :
    k ∈ ((if "csv" ∈ sources then ["csv"] else []) ++
         (if "api" ∈ sources then ["api"] else [])) ↔
      (k ∈ sources ∧ (k = "csv" ∨ k = "api")) := by
  by_cases hc : "csv" ∈ sources <;> by_cases ha : "api" ∈ sources <;>
    simp [hc, ha] <;> aesop

/-- **C2**: when the collaborators needed for the requested recognized
sources succeed, `extract` succeeds and the keys of its result are exactly
the requested identifiers among {"csv", "api"}, csv first; identifiers
outside that set never appear as keys and never make `extract` raise. -/
theorem extract_keys {α : Type} (env : Env α) (st : ETLPipeline) (sources : List String)
    (hcsv : "csv" ∈ sources →
      ∃ l, env.csvExtract (lookupConfig st.config "csv_path") = Except.ok l)
    (hapi : "api" ∈ sources →
      ∃ l, env.apiExtract (lookupConfig st.config "api_url") = Except.ok l) :
    ∃ d, (extract env st sources).1 = Except.ok d ∧
      d.map Prod.fst = (if "csv" ∈ sources then ["csv"] else []) ++
        (if "api" ∈ sources then ["api"] else []) ∧
      ∀ k, k ∈ d.map Prod.fst ↔ (k ∈ sources ∧ (k = "csv" ∨ k = "api")) := by
  have hx : ∃ d, extractData env st.config sources = Except.ok d := by
    unfold extractData
    by_cases hc : "csv" ∈ sources <;> by_cases ha : "api" ∈ sources <;>
      simp only [hc, ha, if_true, if_false, ite_true, ite_false]
    · obtain ⟨l1, h1⟩ := hcsv hc
      obtain ⟨l2, h2⟩ := hapi ha
      rw [h1, h2]
      exact ⟨_, rfl⟩
    · obtain ⟨l1, h1⟩ := hcsv hc
      rw [h1]
      exact ⟨_, rfl⟩
    · obtain ⟨l2, h2⟩ := hapi ha
      rw [h2]
      exact ⟨_, rfl⟩
    · exact ⟨_, rfl⟩
  obtain ⟨d, hd⟩ := hx
  have hkeys := extractData_ok_keys env st.config sources d hd
  refine ⟨d, ?_, hkeys, fun k => ?_⟩
  · unfold extract
    rw [hd]
  · rw [hkeys]
    exact keys_mem_iff sources k

/-- **C2, witness**: a request mixing recognized and unrecognized
identifiers, in caller order api-before-csv, with both collaborators
succeeding. -/
theorem extract_keys_witness :
    ("csv" ∈ ["junk", "api", "csv"] →
      ∃ l, env0.csvExtract (lookupConfig st0.config "csv_path") = Except.ok l) ∧
    ("api" ∈ ["junk", "api", "csv"] →
      ∃ l, env0.apiExtract (lookupConfig st0.config "api_url") = Except.ok l) ∧
    ∃ d, (extract env0 st0 ["junk", "api", "csv"]).1 = Except.ok d ∧
      d.map Prod.fst = (if "csv" ∈ ["junk", "api", "csv"] then ["csv"] else []) ++
        (if "api" ∈ ["junk", "api", "csv"] then ["api"] else []) ∧
      ∀ k, k ∈ d.map Prod.fst ↔
        (k ∈ ["junk", "api", "csv"] ∧ (k = "csv" ∨ k = "api")) :=
  ⟨fun _ => ⟨[10, 20, 30], rfl⟩, fun _ => ⟨[40, 50], rfl⟩,
    extract_keys env0 st0 ["junk", "api", "csv"]
      (fun _ => ⟨[10, 20, 30], rfl⟩) (fun _ => ⟨[40, 50], rfl⟩)⟩

/-! ### Membership-only dependence of the phases on their string lists -/

theorem applyRules_congr {α : Type} (env : Env α) (R1 R2 : List String) (df : List α)
    (hc : ("clean" ∈ R1) = ("clean" ∈ R2)) (hv : ("validate" ∈ R1) = ("validate" ∈ R2)) :
    applyRules env R1 df = applyRules env R2 df := by
  unfold applyRules
  simp only [hc, hv]

theorem transformData_congr {α : Type} (env : Env α) (R1 R2 : List String)
    (hc : ("clean" ∈ R1) = ("clean" ∈ R2)) (hv : ("validate" ∈ R1) = ("validate" ∈ R2))
    (data : List (String × List α)) :
    transformData env R1 data = transformData env R2 data := by
  induction data with
  | nil => rfl
  | cons p rest ih =>
    unfold transformData
    rw [applyRules_congr env R1 R2 p.2 hc hv, ih]

theorem transform_congr {α : Type} (env : Env α) (st : ETLPipeline)
    (data : List (String × List α)) (R1 R2 : List String)
    (hc : ("clean" ∈ R1) = ("clean" ∈ R2)) (hv : ("validate" ∈ R1) = ("validate" ∈ R2)) :
    transform env st data R1 = transform env st data R2 := by
  unfold transform
  rw [transformData_congr env R1 R2 hc hv data]

theorem extract_congr {α : Type} (env : Env α) (st : ETLPipeline) (S1 S2 : List String)
    (hc : ("csv" ∈ S1) = ("csv" ∈ S2)) (ha : ("api" ∈ S1) = ("api" ∈ S2)) :
    extract env st S1 = extract env st S2 := by
  unfold extract extractData
  simp only [hc, ha]

/-- **C6**: per source, `transform` applies exactly the requested recognized
rules, cleaning strictly before validating: the code's per-source step equals
the spec-side composition "clean when requested, then validate (on the
possibly-cleaned records) when requested"; on a one-source mapping the
transform result is that composition; and rule identifiers other than
"clean" and "validate" are ignored — filtering them out of the rule list
changes nothing.  In particular with "validate" requested and "clean" not,
the composition degenerates to validating the raw records. -/
theorem transform_rule_order {α : Type} (env : Env α) (st : ETLPipeline)
    (data : List (String × List α)) (rules : List String) (s : String) (df : List α) :
    (applyRules env rules df =
      (if "clean" ∈ rules then env.clean df else Except.ok df).bind
        (fun d1 => if "validate" ∈ rules then (env.validate d1).map Prod.fst
                   else Except.ok d1)) ∧
    ((transform env st [(s, df)] rules).1 =
      (applyRules env rules df).map (fun d2 => [(s, d2)])) ∧
    (transform env st data rules =
      transform env st data (rules.filter (fun r => r == "clean" || r == "validate"))) := by
  refine ⟨?_, ?_, ?_⟩
  · unfold applyRules
    cases hcl : (if "clean" ∈ rules then env.clean df else Except.ok df) with
    | error e => simp [Except.bind]
    | ok d1 =>
      by_cases hv : "validate" ∈ rules
      · simp only [hv, if_true, ite_true, Except.bind]
        cases env.validate d1 with
        | error e => simp [Except.map]
        | ok pr => cases pr with | mk d2 rep => simp [Except.map]
      · simp [hv, Except.bind]
  · cases har : applyRules env rules df with
    | error e => simp [transform, transformData, har, Except.map]
    | ok d2 => simp [transform, transformData, har, Except.map]
  · apply transform_congr
    · apply propext
      simp [List.mem_filter]
    · apply propext
      simp [List.mem_filter]

/-- **C9**: `extract` and `transform` depend on their sources/rules lists
only through membership — lists with the same members (any order, any
duplicates) give identical results and identical new log entries — and a
successful extraction lists "csv" before "api" in its result no matter how
the caller ordered them. -/
theorem phase_membership_only {α : Type} (env : Env α) (st : ETLPipeline)
    (S1 S2 R1 R2 : List String) (data : List (String × List α))
    (hS : ∀ s, s ∈ S1 ↔ s ∈ S2) (hR : ∀ r, r ∈ R1 ↔ r ∈ R2) :
    extract env st S1 = extract env st S2 ∧
    transform env st data R1 = transform env st data R2 ∧
    ∀ d, (extract env st S1).1 = Except.ok d →
      d.map Prod.fst = (if "csv" ∈ S1 then ["csv"] else []) ++
        (if "api" ∈ S1 then ["api"] else []) := by
  refine ⟨extract_congr env st S1 S2 (propext (hS "csv")) (propext (hS "api")),
          transform_congr env st data R1 R2 (propext (hR "clean")) (propext (hR "validate")),
          fun d hd => ?_⟩
  have hx : extractData env st.config S1 = Except.ok d := by
    unfold extract at hd
    cases hx0 : extractData env st.config S1 with
    | error e => rw [hx0] at hd; cases hd
    | ok d0 => rw [hx0] at hd; cases hd; rfl
  exact extractData_ok_keys env st.config S1 d hx

/-- **C9, witness**: a permuted, duplicated sources list and rules list give
the same results as their deduplicated reorderings, at a concrete state. -/
theorem phase_membership_only_witness :
    (∀ s, s ∈ (["api", "csv", "api"] : List String) ↔ s ∈ (["csv", "api"] : List String)) ∧
    (∀ r, r ∈ (["validate", "clean", "validate"] : List String) ↔
      r ∈ (["clean", "validate"] : List String)) ∧
    (extract env0 st0 ["api", "csv", "api"] = extract env0 st0 ["csv", "api"] ∧
     transform env0 st0 [("csv", [10, 20, 30])] ["validate", "clean", "validate"] =
       transform env0 st0 [("csv", [10, 20, 30])] ["clean", "validate"] ∧
     ∀ d, (extract env0 st0 ["api", "csv", "api"]).1 = Except.ok d →
       d.map Prod.fst = (if "csv" ∈ (["api", "csv", "api"] : List String) then ["csv"] else []) ++
         (if "api" ∈ (["api", "csv", "api"] : List String) then ["api"] else [])) :=
  ⟨fun s => by simp [List.mem_cons]; tauto,
   fun r => by simp [List.mem_cons]; tauto,
   phase_membership_only env0 st0 ["api", "csv", "api"] ["csv", "api"]
     ["validate", "clean", "validate"] ["clean", "validate"] [("csv", [10, 20, 30])]
     (fun s => by simp [List.mem_cons]; tauto)
     (fun r => by simp [List.mem_cons]; tauto)⟩

end ETL
